import Mathlib

/-!
# Shallow embedding of the LC-3 virtual machine (src/lc3.c)

The machine state carries the register file `reg` (indices 0-7 are the
general purpose registers, 8 is the program counter `R_PC`, 9 is the
condition-flags register `R_COND`), the 2^16-cell memory, the pending
standard-input bytes (`input`, empty list modelling end of file), the
bytes written to standard output (`output`), and the `running` flag of
the main loop.  All 16-bit quantities are `Nat` with explicit `% 65536`
where the C code's `uint16_t` arithmetic wraps.
-/

namespace LC3

def MEMORY_MAX : Nat := 65536

/-- Register indices, from the register enum in lc3.c. -/
def R_R0 : Nat := 0

def R_R7 : Nat := 7

def R_PC : Nat := 8

def R_COND : Nat := 9

/-- Opcodes, in the order of the opcode enum in lc3.c. -/
def OP_BR : Nat := 0

def OP_ADD : Nat := 1

def OP_LD : Nat := 2

def OP_ST : Nat := 3

def OP_JSR : Nat := 4

def OP_AND : Nat := 5

def OP_LDR : Nat := 6

def OP_STR : Nat := 7

def OP_RTI : Nat := 8

def OP_NOT : Nat := 9

def OP_LDI : Nat := 10

def OP_STI : Nat := 11

def OP_JMP : Nat := 12

def OP_RES : Nat := 13

def OP_LEA : Nat := 14

def OP_TRAP : Nat := 15

/-- Condition flag values. -/
def FL_POS : Nat := 1

def FL_ZRO : Nat := 2

def FL_NEG : Nat := 4

/-- Trap vectors. -/
def TRAP_GETC : Nat := 0x20

def TRAP_OUT : Nat := 0x21

def TRAP_PUTS : Nat := 0x22

def TRAP_IN : Nat := 0x23

def TRAP_PUTSP : Nat := 0x24

def TRAP_HALT : Nat := 0x25

/-- Memory mapped register addresses. -/
def MR_KBSR : Nat := 0xfe00

def MR_KBDR : Nat := 0xfe02

structure Machine where
  reg : Nat → Nat
  memory : Nat → Nat
  input : List Nat
  output : List Nat
  running : Bool

/-- `reg[r] = v` -/
def setReg (s : Machine) (r v : Nat) : Machine :=
  { s with reg := fun i => if i = r then v else s.reg i }

/-- `void mem_write(U16 addr, U16 data) { memory[addr] = data; }` -/
def mem_write (s : Machine) (addr data : Nat) : Machine :=
  { s with memory := fun a => if a = addr then data else s.memory a }

/-- `check_key`: non-blocking poll of stdin via select; true iff a byte is
pending. -/
def check_key (s : Machine) : Bool := !s.input.isEmpty

/-- `getchar()`: returns the next stdin byte (0..255), or 65535, the
`uint16_t` image of EOF = -1, when the stream is exhausted. -/
def getchar (s : Machine) : Nat × Machine :=
  match s.input with
  | [] => (65535, s)
  | c :: rest => (c % 256, { s with input := rest })

/-- `U16 mem_read(U16 addr)`: a read of the keyboard status register first
polls stdin, setting the ready bit and latching the data byte when a key is
pending, clearing the status word otherwise; every other address is a plain
array read. -/
def mem_read (s : Machine) (addr : Nat) : Nat × Machine :=
  if addr = MR_KBSR then
    if check_key s then
      let g := getchar s
      let s1 := mem_write (mem_write g.2 MR_KBSR 32768) MR_KBDR g.1
      (s1.memory addr, s1)
    else
      let s1 := mem_write s MR_KBSR 0
      (s1.memory addr, s1)
  else (s.memory addr, s)

/-- `U16 sign_extend(U16 x, int bit_count)`: when bit `bit_count - 1` of `x`
is set, `x |= 0xffff << bit_count`, truncated back to 16 bits by the
`uint16_t` assignment. -/
def sign_extend (x : Nat) (bit_count : Nat) : Nat :=
  if (x >>> (bit_count - 1)) &&& 1 = 1 then
    (x ||| (0xffff <<< bit_count)) % 65536
  else x

/-- `void update_cflags(U16 r)` -/
def update_cflags (s : Machine) (r : Nat) : Machine :=
  if s.reg r = 0 then setReg s R_COND FL_ZRO
  else if s.reg r >>> 15 ≠ 0 then setReg s R_COND FL_NEG
  else setReg s R_COND FL_POS

/-- Bytes of a C string literal, for the output stream. -/
def strBytes (t : String) : List Nat := t.toList.map Char.toNat

/-- The PUTS loop: walk memory words from `addr` until a zero word, emitting
the low byte of each word (`putc((char)*c)`).  The fuel is the room left in
the 2^16-cell array: the C loop walking past the array end is undefined
behaviour. -/
def putsChars (mem : Nat → Nat) : Nat → Nat → List Nat
  | _, 0 => []
  | addr, fuel + 1 =>
    if mem addr % 65536 = 0 then []
    else (mem addr % 256) :: putsChars mem (addr + 1) fuel

/-- The PUTSP loop: emit the low byte then, when non-zero, the high byte of
each word until a zero word. -/
def putspChars (mem : Nat → Nat) : Nat → Nat → List Nat
  | _, 0 => []
  | addr, fuel + 1 =>
    if mem addr % 65536 = 0 then []
    else
      (mem addr % 256) ::
        ((if (mem addr % 65536) >>> 8 = 0 then [] else [(mem addr % 65536) >>> 8]) ++
          putspChars mem (addr + 1) fuel)

/-- The instruction fetched by `mem_read(reg[R_PC]++)`. -/
def fetchInstr (s : Machine) : Nat :=
  (mem_read s (s.reg R_PC % 65536)).1 % 65536

/-- The state after the fetch: the side effect of `mem_read` on the keyboard
registers, then the post-increment of `R_PC`. -/
def postFetch (s : Machine) : Machine :=
  let fr := mem_read s (s.reg R_PC % 65536)
  setReg fr.2 R_PC ((fr.2.reg R_PC + 1) % 65536)

/-- `case OP_ADD`.  Note that in register mode the C code sets
`s2 = instr & 0x7`, the register *index*, not `reg[instr & 0x7]`. -/
def execADD (t : Machine) (instr : Nat) : Machine :=
  let imm_mode := (instr >>> 5) &&& 1
  let dest_reg := (instr >>> 9) &&& 7
  let s1_reg := (instr >>> 6) &&& 7
  let s2 := if imm_mode = 1 then sign_extend (instr &&& 0x1f) 5 else instr &&& 0x7
  update_cflags (setReg t dest_reg ((t.reg s1_reg + s2) % 65536)) dest_reg

/-- `case OP_AND`; the same `s2 = instr & 0x7` in register mode. -/
def execAND (t : Machine) (instr : Nat) : Machine :=
  let imm_mode := (instr >>> 5) &&& 1
  let dest_reg := (instr >>> 9) &&& 7
  let s1_reg := (instr >>> 6) &&& 7
  let s2 := if imm_mode = 1 then sign_extend (instr &&& 0x1f) 5 else instr &&& 0x7
  update_cflags (setReg t dest_reg (t.reg s1_reg &&& s2)) dest_reg

/-- `case OP_BR` -/
def execBR (t : Machine) (instr : Nat) : Machine :=
  let p := (instr >>> 9) &&& 7
  if p &&& t.reg R_COND ≠ 0 then
    setReg t R_PC ((t.reg R_PC + sign_extend (instr &&& 0x1ff) 9) % 65536)
  else t

/-- `case OP_JMP` (the stray `t` token before this case label in the source
is treated as the obvious typo). -/
def execJMP (t : Machine) (instr : Nat) : Machine :=
  setReg t R_PC (t.reg ((instr >>> 6) &&& 7) % 65536)

/-- `case OP_JSR` -/
def execJSR (t : Machine) (instr : Nat) : Machine :=
  let t1 := setReg t R_R7 (t.reg R_PC % 65536)
  if (instr >>> 11) &&& 1 = 0 then
    setReg t1 R_PC (t1.reg ((instr >>> 6) &&& 7) % 65536)
  else
    setReg t1 R_PC ((t1.reg R_PC + sign_extend (instr &&& 0x7ff) 11) % 65536)

/-- `case OP_LD` -/
def execLD (t : Machine) (instr : Nat) : Machine :=
  let dr := (instr >>> 9) &&& 7
  let r := mem_read t ((t.reg R_PC + sign_extend (instr &&& 0x1ff) 9) % 65536)
  update_cflags (setReg r.2 dr (r.1 % 65536)) dr

/-- `case OP_LDI` -/
def execLDI (t : Machine) (instr : Nat) : Machine :=
  let dr := (instr >>> 9) &&& 7
  let r1 := mem_read t ((t.reg R_PC + sign_extend (instr &&& 0x1ff) 9) % 65536)
  let r2 := mem_read r1.2 (r1.1 % 65536)
  update_cflags (setReg r2.2 dr (r2.1 % 65536)) dr

/-- `case OP_LDR` -/
def execLDR (t : Machine) (instr : Nat) : Machine :=
  let dr := (instr >>> 9) &&& 7
  let br := (instr >>> 6) &&& 7
  let r := mem_read t ((t.reg br + sign_extend (instr &&& 0x3f) 6) % 65536)
  update_cflags (setReg r.2 dr (r.1 % 65536)) dr

/-- `case OP_LEA` -/
def execLEA (t : Machine) (instr : Nat) : Machine :=
  let dest := (instr >>> 9) &&& 7
  update_cflags
    (setReg t dest ((t.reg R_PC + sign_extend (instr &&& 0x1ff) 9) % 65536)) dest

/-- `case OP_NOT` -/
def execNOT (t : Machine) (instr : Nat) : Machine :=
  let dest := (instr >>> 9) &&& 7
  let src := (instr >>> 6) &&& 7
  update_cflags (setReg t dest ((t.reg src % 65536) ^^^ 0xffff)) dest

/-- `case OP_ST` -/
def execST (t : Machine) (instr : Nat) : Machine :=
  let sr := (instr >>> 9) &&& 7
  mem_write t ((t.reg R_PC + sign_extend (instr &&& 0x1ff) 9) % 65536) (t.reg sr % 65536)

/-- `case OP_STI` -/
def execSTI (t : Machine) (instr : Nat) : Machine :=
  let sr := (instr >>> 9) &&& 7
  let r := mem_read t ((t.reg R_PC + sign_extend (instr &&& 0x1ff) 9) % 65536)
  mem_write r.2 (r.1 % 65536) (r.2.reg sr % 65536)

/-- `case OP_STR` -/
def execSTR (t : Machine) (instr : Nat) : Machine :=
  let r0 := (instr >>> 9) &&& 7
  let r1 := (instr >>> 6) &&& 7
  let off := sign_extend (instr &&& 0x3f) 6
  mem_write t ((t.reg r1 + off) % 65536) (t.reg r0 % 65536)

/-- `case TRAP_GETC`, acting on the state `t1` that already has the return
address in R7. -/
def trapGETC (t1 : Machine) : Machine :=
  let g := getchar t1
  update_cflags (setReg g.2 R_R0 g.1) R_R0

/-- `case TRAP_OUT` -/
def trapOUT (t1 : Machine) : Machine :=
  { t1 with output := t1.output ++ [t1.reg R_R0 % 256] }

/-- `case TRAP_PUTS` -/
def trapPUTS (t1 : Machine) : Machine :=
  { t1 with
    output :=
      t1.output ++ putsChars t1.memory (t1.reg R_R0 % 65536) (65536 - t1.reg R_R0 % 65536) }

/-- `case TRAP_IN`: prompt, blocking read, echo; `(U16)c` sign-extends the
(signed) `char`, so bytes at and above 128 come out as 0xff00 + byte. -/
def trapIN (t1 : Machine) : Machine :=
  let t2 := { t1 with output := t1.output ++ strBytes ("Enter a character: ") }
  let g := getchar t2
  let ch := g.1 % 256
  let v := if ch < 128 then ch else 0xff00 + ch
  update_cflags (setReg { g.2 with output := g.2.output ++ [ch] } R_R0 v) R_R0

/-- `case TRAP_PUTSP` -/
def trapPUTSP (t1 : Machine) : Machine :=
  { t1 with
    output :=
      t1.output ++ putspChars t1.memory (t1.reg R_R0 % 65536) (65536 - t1.reg R_R0 % 65536) }

/-- `case TRAP_HALT`: `puts("HALT")` then `running = 0`. -/
def trapHALT (t1 : Machine) : Machine :=
  { t1 with output := t1.output ++ strBytes ("HALT\n"), running := false }

/-- `case OP_TRAP`: save the return address in R7, then dispatch on the trap
vector (the low byte of the instruction); an unknown vector does nothing
further. -/
def execTRAP (t : Machine) (instr : Nat) : Machine :=
  let t1 := setReg t R_R7 (t.reg R_PC % 65536)
  let vec := instr &&& 0xff
  if vec = TRAP_GETC then trapGETC t1
  else if vec = TRAP_OUT then trapOUT t1
  else if vec = TRAP_PUTS then trapPUTS t1
  else if vec = TRAP_IN then trapIN t1
  else if vec = TRAP_PUTSP then trapPUTSP t1
  else if vec = TRAP_HALT then trapHALT t1
  else t1

/-- The `switch (op)` body of the main loop, acting on the post-fetch state
`t`.  `OP_RES`, `OP_RTI` and the default case do nothing. -/
def execInstr (t : Machine) (instr : Nat) : Machine :=
  let op := instr >>> 12
  if op = OP_ADD then execADD t instr
  else if op = OP_AND then execAND t instr
  else if op = OP_BR then execBR t instr
  else if op = OP_JMP then execJMP t instr
  else if op = OP_JSR then execJSR t instr
  else if op = OP_LD then execLD t instr
  else if op = OP_LDI then execLDI t instr
  else if op = OP_LDR then execLDR t instr
  else if op = OP_LEA then execLEA t instr
  else if op = OP_NOT then execNOT t instr
  else if op = OP_ST then execST t instr
  else if op = OP_STI then execSTI t instr
  else if op = OP_STR then execSTR t instr
  else if op = OP_TRAP then execTRAP t instr
  else t

/-- One iteration of the `while (running)` loop: fetch, post-increment the
program counter, dispatch on the opcode. -/
def exec (s : Machine) : Machine :=
  execInstr (postFetch s) (fetchInstr s)

/-- Outcome of `handle_args`: usage error (exit 2), a failed image load
(exit 1, with the failing path and the paths loaded before it), or success
with the list of paths loaded, in order. -/
inductive ArgsResult where
  | usageExit2 : ArgsResult
  | loadFailExit1 : String → List String → ArgsResult
  | ok : List String → ArgsResult
deriving DecidableEq

/-- The `for (int i = 0; i < argc; i++)` loop of `handle_args`, abstracting
`read_image` as an oracle saying whether a path loads successfully.  It stops
at the first failing path. -/
def load_loop (read_image : String → Bool) : List String → ArgsResult
  | [] => ArgsResult.ok []
  | p :: rest =>
    if read_image p then
      match load_loop read_image rest with
      | ArgsResult.ok l => ArgsResult.ok (p :: l)
      | ArgsResult.loadFailExit1 q before => ArgsResult.loadFailExit1 q (p :: before)
      | r => r
    else ArgsResult.loadFailExit1 p []

/-- `handle_args(argc, argv)`: usage exit when `argc < 2`, otherwise the load
loop over the whole of `argv` — starting, as the C loop does, at index 0,
i.e. at the program name itself. -/
def handle_args (read_image : String → Bool) (argv : List String) : ArgsResult :=
  if argv.length < 2 then ArgsResult.usageExit2
  else load_loop read_image argv

/-- Two's-complement reading of a `bits`-wide value, the interpretation the
spec means by "interpreted as signed". -/
def twosComplement (v bits : Nat) : Int :=
  if v < 2 ^ (bits - 1) then (v : Int) else (v : Int) - 2 ^ bits

/-! ## Frame lemmas for the state operations -/

@[simp] theorem setReg_reg (s : Machine) (r v i : Nat) :
    (setReg s r v).reg i = if i = r then v else s.reg i := rfl

@[simp] theorem setReg_memory (s : Machine) (r v : Nat) :
    (setReg s r v).memory = s.memory := rfl

@[simp] theorem setReg_input (s : Machine) (r v : Nat) :
    (setReg s r v).input = s.input := rfl

@[simp] theorem setReg_output (s : Machine) (r v : Nat) :
    (setReg s r v).output = s.output := rfl

@[simp] theorem setReg_running (s : Machine) (r v : Nat) :
    (setReg s r v).running = s.running := rfl

@[simp] theorem mem_write_memory (s : Machine) (addr data b : Nat) :
    (mem_write s addr data).memory b = if b = addr then data else s.memory b := rfl

@[simp] theorem mem_write_reg (s : Machine) (addr data : Nat) :
    (mem_write s addr data).reg = s.reg := rfl

@[simp] theorem mem_write_input (s : Machine) (addr data : Nat) :
    (mem_write s addr data).input = s.input := rfl

@[simp] theorem mem_write_output (s : Machine) (addr data : Nat) :
    (mem_write s addr data).output = s.output := rfl

@[simp] theorem mem_write_running (s : Machine) (addr data : Nat) :
    (mem_write s addr data).running = s.running := rfl

@[simp] theorem getchar_reg (s : Machine) : (getchar s).2.reg = s.reg := by
  cases h : s.input <;> simp [getchar, h]

@[simp] theorem getchar_memory (s : Machine) : (getchar s).2.memory = s.memory := by
  cases h : s.input <;> simp [getchar, h]

@[simp] theorem getchar_output (s : Machine) : (getchar s).2.output = s.output := by
  cases h : s.input <;> simp [getchar, h]

@[simp] theorem getchar_running (s : Machine) : (getchar s).2.running = s.running := by
  cases h : s.input <;> simp [getchar, h]

@[simp] theorem mem_read_reg (s : Machine) (addr : Nat) :
    (mem_read s addr).2.reg = s.reg := by
  unfold mem_read
  split <;> [skip; rfl]
  split <;> simp

@[simp] theorem mem_read_output (s : Machine) (addr : Nat) :
    (mem_read s addr).2.output = s.output := by
  unfold mem_read
  split <;> [skip; rfl]
  split <;> simp

@[simp] theorem mem_read_running (s : Machine) (addr : Nat) :
    (mem_read s addr).2.running = s.running := by
  unfold mem_read
  split <;> [skip; rfl]
  split <;> simp

@[simp] theorem update_cflags_memory (s : Machine) (r : Nat) :
    (update_cflags s r).memory = s.memory := by
  unfold update_cflags
  split <;> [rfl; split <;> rfl]

@[simp] theorem update_cflags_input (s : Machine) (r : Nat) :
    (update_cflags s r).input = s.input := by
  unfold update_cflags
  split <;> [rfl; split <;> rfl]

@[simp] theorem update_cflags_output (s : Machine) (r : Nat) :
    (update_cflags s r).output = s.output := by
  unfold update_cflags
  split <;> [rfl; split <;> rfl]

@[simp] theorem update_cflags_running (s : Machine) (r : Nat) :
    (update_cflags s r).running = s.running := by
  unfold update_cflags
  split <;> [rfl; split <;> rfl]

theorem update_cflags_reg_ne (s : Machine) (r i : Nat) (h : i ≠ R_COND) :
    (update_cflags s r).reg i = s.reg i := by
  unfold update_cflags
  split <;> [skip; split] <;> simp [setReg, h]

@[simp] theorem postFetch_reg_pc (s : Machine) :
    (postFetch s).reg R_PC = (s.reg R_PC + 1) % 65536 := by
  simp [postFetch, R_PC]

theorem postFetch_reg_ne (s : Machine) (i : Nat) (h : i ≠ R_PC) :
    (postFetch s).reg i = s.reg i := by
  simp [postFetch, R_PC] at h ⊢
  simp [h]

@[simp] theorem postFetch_memory (s : Machine) :
    (postFetch s).memory = (mem_read s (s.reg R_PC % 65536)).2.memory := by
  simp [postFetch]

@[simp] theorem postFetch_input (s : Machine) :
    (postFetch s).input = (mem_read s (s.reg R_PC % 65536)).2.input := by
  simp [postFetch]

@[simp] theorem postFetch_output (s : Machine) :
    (postFetch s).output = s.output := by
  simp [postFetch]

@[simp] theorem postFetch_running (s : Machine) :
    (postFetch s).running = s.running := by
  simp [postFetch]

/-! ## Per-case lemmas about the `running` flag and the condition flags -/

@[simp] theorem execADD_running (t : Machine) (i : Nat) :
    (execADD t i).running = t.running := by simp [execADD]

@[simp] theorem execAND_running (t : Machine) (i : Nat) :
    (execAND t i).running = t.running := by simp [execAND]

@[simp] theorem execBR_running (t : Machine) (i : Nat) :
    (execBR t i).running = t.running := by
  simp only [execBR]
  split <;> simp

@[simp] theorem execJMP_running (t : Machine) (i : Nat) :
    (execJMP t i).running = t.running := by simp [execJMP]

@[simp] theorem execJSR_running (t : Machine) (i : Nat) :
    (execJSR t i).running = t.running := by
  simp only [execJSR]
  split <;> simp

@[simp] theorem execLD_running (t : Machine) (i : Nat) :
    (execLD t i).running = t.running := by simp [execLD]

@[simp] theorem execLDI_running (t : Machine) (i : Nat) :
    (execLDI t i).running = t.running := by simp [execLDI]

@[simp] theorem execLDR_running (t : Machine) (i : Nat) :
    (execLDR t i).running = t.running := by simp [execLDR]

@[simp] theorem execLEA_running (t : Machine) (i : Nat) :
    (execLEA t i).running = t.running := by simp [execLEA]

@[simp] theorem execNOT_running (t : Machine) (i : Nat) :
    (execNOT t i).running = t.running := by simp [execNOT]

@[simp] theorem execST_running (t : Machine) (i : Nat) :
    (execST t i).running = t.running := by simp [execST]

@[simp] theorem execSTI_running (t : Machine) (i : Nat) :
    (execSTI t i).running = t.running := by simp [execSTI]

@[simp] theorem execSTR_running (t : Machine) (i : Nat) :
    (execSTR t i).running = t.running := by simp [execSTR]

@[simp] theorem trapGETC_running (t : Machine) :
    (trapGETC t).running = t.running := by simp [trapGETC]

@[simp] theorem trapOUT_running (t : Machine) :
    (trapOUT t).running = t.running := rfl

@[simp] theorem trapPUTS_running (t : Machine) :
    (trapPUTS t).running = t.running := rfl

@[simp] theorem trapIN_running (t : Machine) :
    (trapIN t).running = t.running := by simp [trapIN]

@[simp] theorem trapPUTSP_running (t : Machine) :
    (trapPUTSP t).running = t.running := rfl

@[simp] theorem trapHALT_running (t : Machine) :
    (trapHALT t).running = false := rfl

theorem execTRAP_running (t : Machine) (i : Nat) :
    (execTRAP t i).running = if i &&& 0xff = TRAP_HALT then false else t.running := by
  simp only [execTRAP]
  split_ifs with h1 h2 h3 h4 h5 h6 <;>
    simp_all [TRAP_GETC, TRAP_OUT, TRAP_PUTS, TRAP_IN, TRAP_PUTSP, TRAP_HALT]

/-- The only way the main loop stops: a TRAP instruction with vector 0x25. -/
theorem execInstr_running (t : Machine) (i : Nat) (hop : i >>> 12 < 16) :
    (execInstr t i).running =
      if i >>> 12 = OP_TRAP ∧ i &&& 0xff = TRAP_HALT then false else t.running := by
  have hcases : i >>> 12 = 0 ∨ i >>> 12 = 1 ∨ i >>> 12 = 2 ∨ i >>> 12 = 3 ∨ i >>> 12 = 4
      ∨ i >>> 12 = 5 ∨ i >>> 12 = 6 ∨ i >>> 12 = 7 ∨ i >>> 12 = 8 ∨ i >>> 12 = 9
      ∨ i >>> 12 = 10 ∨ i >>> 12 = 11 ∨ i >>> 12 = 12 ∨ i >>> 12 = 13 ∨ i >>> 12 = 14
      ∨ i >>> 12 = 15 := by omega
  rcases hcases with h | h | h | h | h | h | h | h | h | h | h | h | h | h | h | h <;>
    simp [execInstr, h, execTRAP_running, OP_BR, OP_ADD, OP_LD, OP_ST, OP_JSR, OP_AND,
      OP_LDR, OP_STR, OP_RTI, OP_NOT, OP_LDI, OP_STI, OP_JMP, OP_RES, OP_LEA, OP_TRAP]

theorem execBR_reg_cond (t : Machine) (i : Nat) :
    (execBR t i).reg R_COND = t.reg R_COND := by
  simp only [execBR]
  split <;> simp [R_PC, R_COND]

theorem execJMP_reg_cond (t : Machine) (i : Nat) :
    (execJMP t i).reg R_COND = t.reg R_COND := by
  simp [execJMP, R_PC, R_COND]

theorem execJSR_reg_cond (t : Machine) (i : Nat) :
    (execJSR t i).reg R_COND = t.reg R_COND := by
  simp only [execJSR]
  split <;> simp [R_PC, R_COND, R_R7]

theorem execST_reg_cond (t : Machine) (i : Nat) :
    (execST t i).reg R_COND = t.reg R_COND := by
  simp [execST]

theorem execSTI_reg_cond (t : Machine) (i : Nat) :
    (execSTI t i).reg R_COND = t.reg R_COND := by
  simp [execSTI]

theorem execSTR_reg_cond (t : Machine) (i : Nat) :
    (execSTR t i).reg R_COND = t.reg R_COND := by
  simp [execSTR]

theorem execTRAP_reg_cond (t : Machine) (i : Nat)
    (hg : i &&& 0xff ≠ TRAP_GETC) (hi : i &&& 0xff ≠ TRAP_IN) :
    (execTRAP t i).reg R_COND = t.reg R_COND := by
  simp only [execTRAP]
  split_ifs with h1 h2 h3 h4 h5 _h6 <;>
    simp_all [trapOUT, trapPUTS, trapPUTSP, trapHALT, R_COND, R_R7]

/-- Disjoint OR is addition: ORing a `k`-bit value with a shifted-in high
part adds them. -/
theorem lor_shiftLeft_eq_add (x m k : Nat) (hx : x < 2 ^ k) :
    x ||| (m <<< k) = m <<< k + x := by
  apply Nat.eq_of_testBit_eq
  intro j
  rw [Nat.testBit_lor, Nat.shiftLeft_eq, Nat.mul_comm, Nat.testBit_mul_pow_two_add _ hx j]
  by_cases hj : j < k
  · have h1 : Nat.testBit (2 ^ k * m) j = false := by
      rw [Nat.mul_comm, ← Nat.shiftLeft_eq, Nat.testBit_shiftLeft]
      simp [Nat.not_le.mpr hj]
    simp [hj, h1]
  · have h0 : Nat.testBit x j = false :=
      Nat.testBit_lt_two_pow
        (lt_of_lt_of_le hx (Nat.pow_le_pow_right (by norm_num) (Nat.le_of_not_lt hj)))
    have h1 : Nat.testBit (2 ^ k * m) j = Nat.testBit m (j - k) := by
      rw [Nat.mul_comm, ← Nat.shiftLeft_eq, Nat.testBit_shiftLeft]
      simp [Nat.le_of_not_lt hj]
    simp [hj, h0, h1]

/-- With the sign bit clear, `sign_extend` is the identity. -/
theorem sign_extend_clear (x w : Nat) (hbit : x < 2 ^ (w - 1)) :
    sign_extend x w = x := by
  have hq : x >>> (w - 1) = 0 := by
    rw [Nat.shiftRight_eq_div_pow]
    exact Nat.div_eq_of_lt hbit
  unfold sign_extend
  rw [hq]
  norm_num

/-- With the sign bit set, `sign_extend` fills the 16 - w high bits,
arithmetically adding 2^16 - 2^w. -/
theorem sign_extend_set (x w : Nat) (h1 : 1 ≤ w) (h2 : w ≤ 16) (hx : x < 2 ^ w)
    (hbit : 2 ^ (w - 1) ≤ x) : sign_extend x w = x + (65536 - 2 ^ w) := by
  have hw : w - 1 + 1 = w := by omega
  have h2p : (2 : Nat) ^ w = 2 ^ (w - 1) * 2 := by
    conv_lhs => rw [← hw]
    rw [pow_succ]
  have hq : x >>> (w - 1) = 1 := by
    rw [Nat.shiftRight_eq_div_pow]
    apply Nat.div_eq_of_lt_le
    · omega
    · omega
  have hcond : (x >>> (w - 1)) &&& 1 = 1 := by
    rw [hq]
    decide
  unfold sign_extend
  rw [if_pos hcond, lor_shiftLeft_eq_add x 65535 w hx, Nat.shiftLeft_eq]
  have hp : (2 : Nat) ^ w ≤ 65536 := by
    calc (2 : Nat) ^ w ≤ 2 ^ 16 := Nat.pow_le_pow_right (by norm_num) h2
    _ = 65536 := by norm_num
  have hpos : (1 : Nat) ≤ 2 ^ w := Nat.one_le_two_pow
  have hdecomp : 65535 * 2 ^ w + x = (x + (65536 - 2 ^ w)) + (2 ^ w - 1) * 65536 := by
    omega
  rw [hdecomp, Nat.add_mul_mod_self_right]
  exact Nat.mod_eq_of_lt (by omega)

theorem fetchInstr_lt (s : Machine) : fetchInstr s < 65536 :=
  Nat.mod_lt _ (by norm_num)

theorem fetchInstr_shift_lt (s : Machine) : fetchInstr s >>> 12 < 16 := by
  have h := fetchInstr_lt s
  rw [Nat.shiftRight_eq_div_pow]
  omega

theorem execInstr_eq_BR (t : Machine) (i : Nat) (h : i >>> 12 = OP_BR) :
    execInstr t i = execBR t i := by
  simp [execInstr, h, OP_BR, OP_ADD, OP_LD, OP_ST, OP_JSR, OP_AND, OP_LDR, OP_STR,
    OP_RTI, OP_NOT, OP_LDI, OP_STI, OP_JMP, OP_RES, OP_LEA, OP_TRAP]

theorem execInstr_eq_JMP (t : Machine) (i : Nat) (h : i >>> 12 = OP_JMP) :
    execInstr t i = execJMP t i := by
  simp [execInstr, h, OP_BR, OP_ADD, OP_LD, OP_ST, OP_JSR, OP_AND, OP_LDR, OP_STR,
    OP_RTI, OP_NOT, OP_LDI, OP_STI, OP_JMP, OP_RES, OP_LEA, OP_TRAP]

theorem execInstr_eq_JSR (t : Machine) (i : Nat) (h : i >>> 12 = OP_JSR) :
    execInstr t i = execJSR t i := by
  simp [execInstr, h, OP_BR, OP_ADD, OP_LD, OP_ST, OP_JSR, OP_AND, OP_LDR, OP_STR,
    OP_RTI, OP_NOT, OP_LDI, OP_STI, OP_JMP, OP_RES, OP_LEA, OP_TRAP]

theorem execInstr_eq_ST (t : Machine) (i : Nat) (h : i >>> 12 = OP_ST) :
    execInstr t i = execST t i := by
  simp [execInstr, h, OP_BR, OP_ADD, OP_LD, OP_ST, OP_JSR, OP_AND, OP_LDR, OP_STR,
    OP_RTI, OP_NOT, OP_LDI, OP_STI, OP_JMP, OP_RES, OP_LEA, OP_TRAP]

theorem execInstr_eq_STI (t : Machine) (i : Nat) (h : i >>> 12 = OP_STI) :
    execInstr t i = execSTI t i := by
  simp [execInstr, h, OP_BR, OP_ADD, OP_LD, OP_ST, OP_JSR, OP_AND, OP_LDR, OP_STR,
    OP_RTI, OP_NOT, OP_LDI, OP_STI, OP_JMP, OP_RES, OP_LEA, OP_TRAP]

theorem execInstr_eq_STR (t : Machine) (i : Nat) (h : i >>> 12 = OP_STR) :
    execInstr t i = execSTR t i := by
  simp [execInstr, h, OP_BR, OP_ADD, OP_LD, OP_ST, OP_JSR, OP_AND, OP_LDR, OP_STR,
    OP_RTI, OP_NOT, OP_LDI, OP_STI, OP_JMP, OP_RES, OP_LEA, OP_TRAP]

theorem execInstr_eq_TRAP (t : Machine) (i : Nat) (h : i >>> 12 = OP_TRAP) :
    execInstr t i = execTRAP t i := by
  simp [execInstr, h, OP_BR, OP_ADD, OP_LD, OP_ST, OP_JSR, OP_AND, OP_LDR, OP_STR,
    OP_RTI, OP_NOT, OP_LDI, OP_STI, OP_JMP, OP_RES, OP_LEA, OP_TRAP]

/-! ## Concrete states used by witnesses and counterexamples -/

/-- PC at 0x3000 and `TRAP x25` (HALT) at 0x3000. -/
def haltState : Machine :=
  { reg := fun i => if i = 8 then 12288 else 0,
    memory := fun a => if a = 12288 then 61477 else 0,
    input := [], output := [], running := true }

/-- PC at 0x3000, flags at FL_POS, and `BRp 5` (0x0205) at 0x3000. -/
def brState : Machine :=
  { reg := fun i => if i = 8 then 12288 else if i = 9 then 1 else 0,
    memory := fun a => if a = 12288 then 517 else 0,
    input := [], output := [], running := true }

/-- A blank machine. -/
def M0 : Machine :=
  { reg := fun _ => 0, memory := fun _ => 0, input := [], output := [], running := true }

/-- A machine whose R0 holds 5. -/
def M5 : Machine :=
  { reg := fun i => if i = 0 then 5 else 0, memory := fun _ => 0,
    input := [], output := [], running := true }

/-- A machine with the byte 97 pending on stdin. -/
def K8 : Machine :=
  { reg := fun _ => 0, memory := fun _ => 0, input := [97], output := [], running := true }

/-- PC at 0x3000, reg1 = 10, reg2 = 7, and `ADD R0, R1, R2` (0x1042) at
0x3000. -/
def addBugState : Machine :=
  { reg := fun i => if i = 8 then 12288 else if i = 1 then 10 else if i = 2 then 7 else 0,
    memory := fun a => if a = 12288 then 4162 else 0,
    input := [], output := [], running := true }

/-- PC at 0x3000, reg1 = 5, reg2 = 4, and `AND R0, R1, R2` (0x5042) at
0x3000. -/
def andBugState : Machine :=
  { reg := fun i => if i = 8 then 12288 else if i = 1 then 5 else if i = 2 then 4 else 0,
    memory := fun a => if a = 12288 then 20546 else 0,
    input := [], output := [], running := true }

/-- PC at 0x3000, flags at FL_ZRO, `TRAP x20` (0xf020) at 0x3000, byte 97
pending on stdin. -/
def getcState : Machine :=
  { reg := fun i => if i = 8 then 12288 else if i = 9 then 2 else 0,
    memory := fun a => if a = 12288 then 61472 else 0,
    input := [97], output := [], running := true }

/-! ## Claim theorems -/

/-- C10: `mem_write` stores the value verbatim at the given address (the
memory-mapped keyboard addresses included), changes no other memory cell, no
register and no device state, and the keyboard-device emulation runs only on
reads of the keyboard status address, never on writes. -/
theorem mem_write_is_pure_store (s : Machine) (addr v : Nat) :
    (mem_write s addr v).memory addr = v
    ∧ (∀ b, b ≠ addr → (mem_write s addr v).memory b = s.memory b)
    ∧ (mem_write s addr v).reg = s.reg
    ∧ (mem_write s addr v).input = s.input
    ∧ (mem_write s addr v).output = s.output
    ∧ (mem_write s addr v).running = s.running
    ∧ (∀ a, a ≠ MR_KBSR → mem_read s a = (s.memory a, s)) := by
  refine ⟨by simp, fun b hb => by simp [hb], rfl, rfl, rfl, rfl, fun a ha => ?_⟩
  simp [mem_read, ha]

/-- C10 witness at the keyboard addresses. -/
theorem mem_write_is_pure_store_witness :
    (mem_write M0 0xfe00 5).memory 0xfe00 = 5
    ∧ (mem_write M0 0xfe00 5).memory 0xfe02 = M0.memory 0xfe02
    ∧ (mem_write M0 0xfe00 5).input = M0.input
    ∧ mem_read M0 0xfe02 = (M0.memory 0xfe02, M0) := by
  obtain ⟨h1, h2, _, h4, _, _, h7⟩ := mem_write_is_pure_store M0 0xfe00 5
  exact ⟨h1, h2 0xfe02 (by decide), h4, h7 0xfe02 (by decide)⟩

/-- C8: a read at the keyboard status address with no pending input stores 0
into the status cell and returns 0; with a pending byte `c` it stores 32768
(bit 15 set) into the status cell and `c` zero-extended into the data cell,
consumes the byte, and returns the status word 32768; a read anywhere else
returns the stored cell with no side effect. -/
theorem mem_read_keyboard (s1 s2 s3 : Machine) (addr c : Nat) (rest : List Nat)
    (h1 : s1.input = []) (h2 : s2.input = c :: rest) (hc : c < 256)
    (ha : addr ≠ MR_KBSR) :
    ((mem_read s1 MR_KBSR).1 = 0
      ∧ (mem_read s1 MR_KBSR).2.memory MR_KBSR = 0
      ∧ (∀ b, b ≠ MR_KBSR → (mem_read s1 MR_KBSR).2.memory b = s1.memory b)
      ∧ (mem_read s1 MR_KBSR).2.input = s1.input)
    ∧ ((mem_read s2 MR_KBSR).2.memory MR_KBSR = 32768
      ∧ (mem_read s2 MR_KBSR).2.memory MR_KBDR = c
      ∧ (mem_read s2 MR_KBSR).1 = 32768
      ∧ (mem_read s2 MR_KBSR).2.input = rest
      ∧ (∀ b, b ≠ MR_KBSR → b ≠ MR_KBDR → (mem_read s2 MR_KBSR).2.memory b = s2.memory b))
    ∧ mem_read s3 addr = (s3.memory addr, s3) := by
  have hne : MR_KBSR ≠ MR_KBDR := by decide
  refine ⟨⟨?_, ?_, fun b hb => ?_, ?_⟩, ⟨?_, ?_, ?_, ?_, fun b hb hb2 => ?_⟩, ?_⟩
  · simp [mem_read, check_key, h1]
  · simp [mem_read, check_key, h1]
  · simp [mem_read, check_key, h1, hb]
  · simp [mem_read, check_key, h1]
  · simp [mem_read, check_key, getchar, h2, hne]
  · simp [mem_read, check_key, getchar, h2, Nat.mod_eq_of_lt hc]
  · simp [mem_read, check_key, getchar, h2, hne]
  · simp [mem_read, check_key, getchar, h2]
  · simp [mem_read, check_key, getchar, h2, hb, hb2]
  · simp [mem_read, ha]

/-- C8 witness: the empty-input, pending-input and pass-through cases at
concrete states. -/
theorem mem_read_keyboard_witness :
    ((mem_read M0 MR_KBSR).1 = 0
      ∧ (mem_read M0 MR_KBSR).2.memory MR_KBSR = 0
      ∧ (∀ b, b ≠ MR_KBSR → (mem_read M0 MR_KBSR).2.memory b = M0.memory b)
      ∧ (mem_read M0 MR_KBSR).2.input = M0.input)
    ∧ ((mem_read K8 MR_KBSR).2.memory MR_KBSR = 32768
      ∧ (mem_read K8 MR_KBSR).2.memory MR_KBDR = 97
      ∧ (mem_read K8 MR_KBSR).1 = 32768
      ∧ (mem_read K8 MR_KBSR).2.input = []
      ∧ (∀ b, b ≠ MR_KBSR → b ≠ MR_KBDR → (mem_read K8 MR_KBSR).2.memory b = K8.memory b))
    ∧ mem_read M0 0xfe02 = (M0.memory 0xfe02, M0) :=
  mem_read_keyboard M0 K8 M0 0xfe02 97 [] rfl rfl (by decide) (by decide)

/-- C5: after `update_cflags r` the condition-flags register is FL_ZRO when
register `r` held 0, FL_NEG when its bit 15 was set, FL_POS otherwise, and
the flags value is always exactly one of the three. -/
theorem update_cflags_spec (s : Machine) (r : Nat) (h : s.reg r < 65536) :
    (update_cflags s r).reg R_COND =
      (if s.reg r = 0 then FL_ZRO
       else if Nat.testBit (s.reg r) 15 then FL_NEG else FL_POS)
    ∧ ((update_cflags s r).reg R_COND = FL_POS ∨ (update_cflags s r).reg R_COND = FL_ZRO
        ∨ (update_cflags s r).reg R_COND = FL_NEG) := by
  have hdiv : s.reg r >>> 15 = s.reg r / 2 ^ 15 := Nat.shiftRight_eq_div_pow _ _
  have hlt : s.reg r / 2 ^ 15 < 2 := by
    rw [Nat.div_lt_iff_lt_mul (by norm_num)]
    omega
  have htb : Nat.testBit (s.reg r) 15 = decide (s.reg r / 2 ^ 15 % 2 = 1) :=
    Nat.testBit_to_div_mod
  constructor
  · rcases (by omega : s.reg r / 2 ^ 15 = 0 ∨ s.reg r / 2 ^ 15 = 1) with hq | hq
    · have h15 : s.reg r >>> 15 = 0 := by rw [hdiv, hq]
      have htb2 : Nat.testBit (s.reg r) 15 = false := by rw [htb, hq]; decide
      by_cases h0 : s.reg r = 0
      · simp [update_cflags, h0]
      · simp [update_cflags, h0, h15, htb2]
    · have h15 : s.reg r >>> 15 = 1 := by rw [hdiv, hq]
      have h0 : s.reg r ≠ 0 := by
        intro h00
        rw [h00] at h15
        simp at h15
      have htb2 : Nat.testBit (s.reg r) 15 = true := by rw [htb, hq]; decide
      simp [update_cflags, h0, h15, htb2]
  · unfold update_cflags
    split
    · right; left; simp
    · split
      · right; right; simp
      · left; simp

/-- C5 witness at register 0 holding 5. -/
theorem update_cflags_spec_witness :
    (update_cflags M5 0).reg R_COND =
      (if M5.reg 0 = 0 then FL_ZRO
       else if Nat.testBit (M5.reg 0) 15 then FL_NEG else FL_POS)
    ∧ ((update_cflags M5 0).reg R_COND = FL_POS ∨ (update_cflags M5 0).reg R_COND = FL_ZRO
        ∨ (update_cflags M5 0).reg R_COND = FL_NEG) :=
  update_cflags_spec M5 0 (by decide)

/-- C1: evaluation of the code at the failing input.  Instruction 0x1042 is
`ADD R0, R1, R2` in register mode; the code sets `s2 = instr & 0x7` — the
source-2 register index, 2 — instead of `reg[instr & 0x7]`, so with reg1 = 10
and reg2 = 7 it stores 12 into R0 where the claim requires
(reg1 + reg2) % 65536 = 17. -/
theorem add_register_mode_eval :
    fetchInstr addBugState = 0x1042
    ∧ (exec addBugState).reg 0 = 12
    ∧ (addBugState.reg 1 + addBugState.reg 2) % 65536 = 17 := by
  decide

/-- C2: evaluation of the code at the failing input.  Instruction 0x5042 is
`AND R0, R1, R2` in register mode; the code ANDs with the source-2 register
index 2 instead of reg2, so with reg1 = 5 and reg2 = 4 it stores 5 AND 2 = 0
into R0 where the claim requires 5 AND 4 = 4. -/
theorem and_register_mode_eval :
    fetchInstr andBugState = 0x5042
    ∧ (exec andBugState).reg 0 = 0
    ∧ (andBugState.reg 1 &&& andBugState.reg 2) = 4 := by
  decide

/-- C4: evaluation of the code at the failing input.  With every path
loadable, `handle_args` on argv = [lc3, prog.obj] loads both entries — the
loop starts at index 0, so the program name itself is loaded as an image,
not just the supplied path.  The zero-path usage exits are as claimed. -/
theorem handle_args_eval :
    handle_args (fun _ => true) ["lc3", "prog.obj"] = ArgsResult.ok ["lc3", "prog.obj"]
    ∧ ArgsResult.ok ["lc3", "prog.obj"] ≠ ArgsResult.ok ["prog.obj"]
    ∧ handle_args (fun _ => true) ["lc3"] = ArgsResult.usageExit2
    ∧ handle_args (fun _ => false) ["lc3", "a.obj", "b.obj"]
        = ArgsResult.loadFailExit1 "lc3" [] := by
  refine ⟨by decide, by decide, by decide, by decide⟩

/-- C3 counterexample: `TRAP x20` (GETC) at PC 0x3000 with the byte 97
pending reads the byte into R0 and calls `update_cflags`, so the
condition-flags register changes from FL_ZRO to FL_POS: a TRAP instruction
does not always leave the flags unchanged. -/
theorem trap_getc_changes_flags :
    fetchInstr getcState >>> 12 = OP_TRAP
    ∧ fetchInstr getcState &&& 0xff = TRAP_GETC
    ∧ getcState.reg R_COND = FL_ZRO
    ∧ (exec getcState).reg R_COND = FL_POS := by
  decide

/-- C3 (amended): executing an instruction whose opcode is ST, STI, STR, JMP,
JSR or BR, or a TRAP whose vector is neither 0x20 (GETC) nor 0x23 (IN),
leaves the Condition-Flags register unchanged. -/
theorem flags_frame (s : Machine)
    (h : fetchInstr s >>> 12 = OP_ST ∨ fetchInstr s >>> 12 = OP_STI
      ∨ fetchInstr s >>> 12 = OP_STR ∨ fetchInstr s >>> 12 = OP_JMP
      ∨ fetchInstr s >>> 12 = OP_JSR ∨ fetchInstr s >>> 12 = OP_BR
      ∨ (fetchInstr s >>> 12 = OP_TRAP ∧ fetchInstr s &&& 0xff ≠ TRAP_GETC
          ∧ fetchInstr s &&& 0xff ≠ TRAP_IN)) :
    (exec s).reg R_COND = s.reg R_COND := by
  have hpf : (postFetch s).reg R_COND = s.reg R_COND :=
    postFetch_reg_ne s R_COND (by decide)
  unfold exec
  rcases h with h | h | h | h | h | h | ⟨h, hg, hi⟩
  · rw [execInstr_eq_ST _ _ h, execST_reg_cond, hpf]
  · rw [execInstr_eq_STI _ _ h, execSTI_reg_cond, hpf]
  · rw [execInstr_eq_STR _ _ h, execSTR_reg_cond, hpf]
  · rw [execInstr_eq_JMP _ _ h, execJMP_reg_cond, hpf]
  · rw [execInstr_eq_JSR _ _ h, execJSR_reg_cond, hpf]
  · rw [execInstr_eq_BR _ _ h, execBR_reg_cond, hpf]
  · rw [execInstr_eq_TRAP _ _ h, execTRAP_reg_cond _ _ hg hi, hpf]

/-- C3 witness: the all-zero machine fetches instruction 0, a BR, and its
flags are untouched. -/
theorem flags_frame_witness : (exec M0).reg R_COND = M0.reg R_COND :=
  flags_frame M0 (by decide)

/-- C7: an instruction leaves the machine running unless it is a TRAP with
vector 0x25 (HALT), the only instruction that stops the run loop. -/
theorem run_loop_halts_only_on_trap_halt (s : Machine) (h : s.running = true) :
    ((exec s).running = false ↔
      fetchInstr s >>> 12 = OP_TRAP ∧ fetchInstr s &&& 0xff = TRAP_HALT) := by
  have hr := execInstr_running (postFetch s) (fetchInstr s) (fetchInstr_shift_lt s)
  unfold exec
  rw [hr, postFetch_running, h]
  split
  · simp_all
  · simp_all

/-- C7 witness: `TRAP x25` at the PC stops the machine. -/
theorem run_loop_halts_only_on_trap_halt_witness :
    (exec haltState).running = false ↔
      fetchInstr haltState >>> 12 = OP_TRAP ∧ fetchInstr haltState &&& 0xff = TRAP_HALT :=
  run_loop_halts_only_on_trap_halt haltState rfl

/-- C6: a BR instruction whose condition bits meet the current flags sets the
PC to the post-fetch PC plus the sign-extended 9-bit offset (mod 2^16); a BR
whose condition bits miss leaves the PC at fetch + 1; in both cases no other
register changes, and memory, input, output and the running flag are exactly
those of the fetch itself. -/
theorem br_spec (s : Machine) (h : fetchInstr s >>> 12 = OP_BR) :
    (if ((fetchInstr s >>> 9) &&& 7) &&& s.reg R_COND ≠ 0 then
        (exec s).reg R_PC
          = (s.reg R_PC + 1 + sign_extend (fetchInstr s &&& 0x1ff) 9) % 65536
      else (exec s).reg R_PC = (s.reg R_PC + 1) % 65536)
    ∧ (∀ i, i ≠ R_PC → (exec s).reg i = s.reg i)
    ∧ (exec s).memory = (mem_read s (s.reg R_PC % 65536)).2.memory
    ∧ (exec s).input = (mem_read s (s.reg R_PC % 65536)).2.input
    ∧ (exec s).output = s.output
    ∧ (exec s).running = s.running := by
  have hpc : (postFetch s).reg R_PC = (s.reg R_PC + 1) % 65536 := postFetch_reg_pc s
  have hcond : (postFetch s).reg R_COND = s.reg R_COND :=
    postFetch_reg_ne s R_COND (by decide)
  have he : exec s = execBR (postFetch s) (fetchInstr s) := by
    unfold exec
    rw [execInstr_eq_BR _ _ h]
  by_cases hbr : ((fetchInstr s >>> 9) &&& 7) &&& s.reg R_COND = 0
  · have he2 : exec s = postFetch s := by
      rw [he]
      simp only [execBR]
      rw [if_neg (by rw [hcond]; simp [hbr])]
    refine ⟨?_, fun i hi => ?_, ?_, ?_, ?_, ?_⟩
    · rw [if_neg (by simp [hbr]), he2, hpc]
    · rw [he2, postFetch_reg_ne s i hi]
    · rw [he2, postFetch_memory]
    · rw [he2, postFetch_input]
    · rw [he2, postFetch_output]
    · rw [he2, postFetch_running]
  · have he2 : exec s = setReg (postFetch s) R_PC
        (((postFetch s).reg R_PC + sign_extend (fetchInstr s &&& 0x1ff) 9) % 65536) := by
      rw [he]
      simp only [execBR]
      rw [if_pos (by rw [hcond]; exact hbr)]
    refine ⟨?_, fun i hi => ?_, ?_, ?_, ?_, ?_⟩
    · have hval : (exec s).reg R_PC
          = (s.reg R_PC + 1 + sign_extend (fetchInstr s &&& 0x1ff) 9) % 65536 := by
        rw [he2]
        show ((postFetch s).reg R_PC + sign_extend (fetchInstr s &&& 0x1ff) 9) % 65536 = _
        rw [hpc, Nat.mod_add_mod]
      simp only [hval]
      rw [if_pos hbr]
      trivial
    · rw [he2]
      simp only [setReg_reg, if_neg hi]
      exact postFetch_reg_ne s i hi
    · rw [he2, setReg_memory, postFetch_memory]
    · rw [he2, setReg_input, postFetch_input]
    · rw [he2, setReg_output, postFetch_output]
    · rw [he2, setReg_running, postFetch_running]

/-- C6 witness: a taken `BRp 5` at 0x3000 with FL_POS set. -/
theorem br_spec_witness :
    (if ((fetchInstr brState >>> 9) &&& 7) &&& brState.reg R_COND ≠ 0 then
        (exec brState).reg R_PC
          = (brState.reg R_PC + 1 + sign_extend (fetchInstr brState &&& 0x1ff) 9) % 65536
      else (exec brState).reg R_PC = (brState.reg R_PC + 1) % 65536)
    ∧ (∀ i, i ≠ R_PC → (exec brState).reg i = brState.reg i)
    ∧ (exec brState).memory = (mem_read brState (brState.reg R_PC % 65536)).2.memory
    ∧ (exec brState).input = (mem_read brState (brState.reg R_PC % 65536)).2.input
    ∧ (exec brState).output = brState.output
    ∧ (exec brState).running = brState.running :=
  br_spec brState (by decide)

/-- C9: for a value `x` occupying the low `w` bits (1 ≤ w ≤ 16),
`sign_extend x w` read as a signed 16-bit integer equals the two's-complement
value of `x` as a `w`-bit signed number; when bit `w - 1` is clear the value
is unchanged, and when it is set every bit from `w` to 15 of the result is
set while the low `w` bits are preserved. -/
theorem sign_extend_spec (x w : Nat) (h1 : 1 ≤ w) (h2 : w ≤ 16) (hx : x < 2 ^ w) :
    twosComplement (sign_extend x w) 16 = twosComplement x w
    ∧ ((x >>> (w - 1)) &&& 1 = 0 → sign_extend x w = x)
    ∧ ((x >>> (w - 1)) &&& 1 = 1 →
        sign_extend x w = x + (65536 - 2 ^ w)
        ∧ (∀ j, w ≤ j → j < 16 → Nat.testBit (sign_extend x w) j = true)
        ∧ sign_extend x w % 2 ^ w = x) := by
  have hw : w - 1 + 1 = w := by omega
  have h2p : (2 : Nat) ^ w = 2 ^ (w - 1) * 2 := by
    conv_lhs => rw [← hw]
    rw [pow_succ]
  have hp : (2 : Nat) ^ w ≤ 65536 := by
    calc (2 : Nat) ^ w ≤ 2 ^ 16 := Nat.pow_le_pow_right (by norm_num) h2
    _ = 65536 := by norm_num
  have hple : (2 : Nat) ^ (w - 1) ≤ 32768 := by
    calc (2 : Nat) ^ (w - 1) ≤ 2 ^ 15 := Nat.pow_le_pow_right (by norm_num) (by omega)
    _ = 32768 := by norm_num
  by_cases hbit : x < 2 ^ (w - 1)
  · have hval : sign_extend x w = x := sign_extend_clear x w hbit
    have hq : x >>> (w - 1) = 0 := by
      rw [Nat.shiftRight_eq_div_pow]
      exact Nat.div_eq_of_lt hbit
    have hxlt : x < 2 ^ 15 := lt_of_lt_of_le hbit (by norm_num [hple])
    refine ⟨?_, fun _ => hval, fun habs => absurd habs (by rw [hq]; decide)⟩
    rw [hval]
    unfold twosComplement
    rw [if_pos (show x < 2 ^ (16 - 1) from hxlt), if_pos hbit]
  · push_neg at hbit
    have hval : sign_extend x w = x + (65536 - 2 ^ w) := sign_extend_set x w h1 h2 hx hbit
    have hq : x >>> (w - 1) = 1 := by
      rw [Nat.shiftRight_eq_div_pow]
      apply Nat.div_eq_of_lt_le <;> omega
    have hcond : (x >>> (w - 1)) &&& 1 = 1 := by
      rw [hq]
      decide
    refine ⟨?_, fun habs => absurd habs (by rw [hcond]; decide), fun _ => ⟨hval, ?_, ?_⟩⟩
    · have hge : ¬ (x + (65536 - 2 ^ w) < 2 ^ (16 - 1)) := by
        have h215 : (2 : Nat) ^ (16 - 1) = 32768 := by norm_num
        omega
      rw [hval]
      unfold twosComplement
      rw [if_neg hge, if_neg (Nat.not_lt.mpr hbit)]
      have hcast : ((x + (65536 - 2 ^ w) : Nat) : Int) = (x : Int) + 65536 - (2 ^ w : Nat) := by
        push_cast [hp]
        ring
      rw [hcast]
      push_cast
      ring
    · intro j hjw hj16
      have hform : sign_extend x w = (x ||| 65535 <<< w) % 65536 := by
        unfold sign_extend
        rw [if_pos hcond]
      rw [hform, show (65536 : Nat) = 2 ^ 16 by norm_num, Nat.testBit_mod_two_pow,
        Nat.testBit_lor, Nat.testBit_shiftLeft]
      have h65535 : (65535 : Nat) = 2 ^ 16 - 1 := by norm_num
      rw [h65535, Nat.testBit_two_pow_sub_one]
      simp [hj16, hjw, Nat.lt_of_le_of_lt (Nat.sub_le j w) hj16]
    · rw [hval]
      have hfact : 2 ^ w * 2 ^ (16 - w) = 65536 := by
        rw [← pow_add, show (65536 : Nat) = 2 ^ 16 by norm_num]
        congr 1
        omega
      have hdiv : 65536 - 2 ^ w = (2 ^ (16 - w) - 1) * 2 ^ w := by
        rw [Nat.sub_mul, Nat.one_mul, Nat.mul_comm, hfact]
      rw [hdiv, Nat.add_mul_mod_self_right]
      exact Nat.mod_eq_of_lt hx

/-- C9 witness at the 5-bit immediate 31 (value -1): sign-extending gives
0xffff, whose signed reading is -1. -/
theorem sign_extend_spec_witness :
    twosComplement (sign_extend 31 5) 16 = twosComplement 31 5
    ∧ ((31 >>> (5 - 1)) &&& 1 = 0 → sign_extend 31 5 = 31)
    ∧ ((31 >>> (5 - 1)) &&& 1 = 1 →
        sign_extend 31 5 = 31 + (65536 - 2 ^ 5)
        ∧ (∀ j, 5 ≤ j → j < 16 → Nat.testBit (sign_extend 31 5) j = true)
        ∧ sign_extend 31 5 % 2 ^ 5 = 31) :=
  sign_extend_spec 31 5 (by decide) (by decide) (by decide)

end LC3
